import Mathlib

set_option maxRecDepth 16384

/-!
Verification development for the Gemini chat exporter.

The definitions below are shallow embeddings of the JavaScript sources:

* `src/content.js` — in-page content script (extraction, scroll-to-top loop,
  dedup, in-page Markdown/CSV writers, filename sanitizer) and, in its second
  half, the coordinator `exportChat`;
* `src/unnamed/part_000` — standalone content script (same extraction pipeline,
  with the sibling-based `detectCodeLanguage` fallback);
* `src/unnamed/part_002` — CSV export module (`escapeCSV`);
* `src/lib/export-markdown.js` — Markdown export module (`exportToMarkdown`);
* `src/background.js` — background relay (`handleExport`).

Conventions: JS strings are Lean `String`s manipulated through their character
lists (`String.toList`/`String.mk`), so every operation here is executable and
kernel-reducible; JS `null`/`undefined` values are `Option`/empty strings as
noted at each definition; DOM subtrees are values of the `Dom` inductive below,
carrying exactly the node data the embedded functions read (tag, id, class
list, attributes, children).  Times and real scrolling are irrelevant to the
embedded logic: the scroll loop is modelled over an injectable measurement
sequence `counts`, exactly as the spec's design notes prescribe for
`HistoryConverger`.
-/

/-- ASCII whitespace test backing the embedding of `String.prototype.trim`. -/
def isJsSpace (c : Char) : Bool := c == ' ' || c == '\t' || c == '\n' || c == '\r'

/-- Trim on character lists: drop whitespace from both ends. -/
def trimChars (cs : List Char) : List Char :=
  ((cs.dropWhile isJsSpace).reverse.dropWhile isJsSpace).reverse

/-- Model of `str.trim()`. -/
def jsTrim (s : String) : String := String.mk (trimChars s.toList)

/-- Model of `str.substring(0, n)`. -/
def jsSubstring0 (s : String) (n : Nat) : String := String.mk (s.toList.take n)

/-- Model of `str.toLowerCase()` (ASCII). -/
def jsToLower (s : String) : String := String.mk (s.toList.map Char.toLower)

/-- Character-level model of `str.split('\n')`: split at every newline, keeping
empty pieces, never returning an empty list. -/
def splitNl : List Char → List (List Char)
  | [] => [[]]
  | c :: rest =>
    if c == '\n' then [] :: splitNl rest
    else
      match splitNl rest with
      | l :: ls => (c :: l) :: ls
      | [] => [[c]]

/-- Model of `str.split('\n')`. -/
def jsSplitNl (s : String) : List String := (splitNl s.toList).map String.mk

/-- One extracted chat turn, as pushed by `extractCurrentMessages`
(src/content.js:136,142).  `timestamp` models the optional JS field; the empty
string stands for `undefined` (both are falsy wherever the field is read). -/
structure Message where
  role : String
  content : String
  timestamp : String
deriving DecidableEq

/-- Loop body of `scrollToTopAndLoadAll` (src/content.js:256-263,
src/unnamed/part_000:250-273).  `counts j` is the `.conversation-container`
count measured by the `j`-th probe (`counts 0` is the pre-loop measurement),
`fuel` the remaining iterations of `for (let i = 0; i < 100; i++)`, `i` the
number of iterations already performed, `last` the `lastCount` variable and
`stable` the stability counter.  Returns the number of perturbation/probe
iterations performed, paired with `true` iff the loop exited through the
`stable >= 3` break. -/
def scrollLoop (counts : Nat → Nat) : Nat → Nat → Nat → Nat → Nat × Bool
  | 0, i, _, _ => (i, false)
  | fuel+1, i, last, stable =>
    if counts (i+1) = last then
      (if stable + 1 ≥ 3 then (i + 1, true) else scrollLoop counts fuel (i+1) last (stable+1))
    else
      scrollLoop counts fuel (i+1) (counts (i+1)) 0

/-- `scrollToTopAndLoadAll`'s convergence loop with its source constants:
100 maximum attempts, stability threshold 3, initial `lastCount = counts 0`. -/
def scrollToTopAndLoadAll (counts : Nat → Nat) : Nat × Bool :=
  scrollLoop counts 100 0 (counts 0) 0

/-- The claim's hypothesis on the measurement sequence: from the `k`-th probe
on, the turn count no longer grows (it stays at the value of probe `k`). -/
def stopsGrowingAfter (counts : Nat → Nat) (k : Nat) : Prop :=
  ∀ j, k ≤ j → counts j = counts k

/-- Dedup fingerprint exactly as computed at src/content.js:278 and
src/unnamed/part_000:301: `msg.role + '::' + msg.content.substring(0, 200).trim()`
— the first 200 characters are taken first, the trim comes after. -/
def fingerprint (m : Message) : String :=
  m.role ++ "::" ++ jsTrim (jsSubstring0 m.content 200)

/-- Worklist form of `deduplicateMessages` (src/content.js:275-283); `seen`
models the JS `Set` of fingerprints. -/
def dedupGo (seen : List String) : List Message → List Message
  | [] => []
  | m :: ms =>
    if seen.contains (fingerprint m) then dedupGo seen ms
    else m :: dedupGo (fingerprint m :: seen) ms

/-- `deduplicateMessages` (src/content.js:275-283, src/unnamed/part_000:297-308). -/
def deduplicateMessages (msgs : List Message) : List Message := dedupGo [] msgs

/-- Fingerprint as the claim words it (first 200 characters of the *trimmed*
content) — to be compared against `fingerprint`, which the code computes by
trimming the first 200 characters instead. -/
def fingerprintAsClaimed (m : Message) : String :=
  m.role ++ "::" ++ jsSubstring0 (jsTrim m.content) 200

/-- Deduplication as the claim describes it: the same first-occurrence-wins
iteration, but driven by the claim's fingerprint. -/
def dedupGoAsClaimed (seen : List String) : List Message → List Message
  | [] => []
  | m :: ms =>
    if seen.contains (fingerprintAsClaimed m) then dedupGoAsClaimed seen ms
    else m :: dedupGoAsClaimed (fingerprintAsClaimed m :: seen) ms

/-- Deduplication with the claim's trim-then-truncate fingerprint. -/
def deduplicateAsClaimed (msgs : List Message) : List Message := dedupGoAsClaimed [] msgs

/-- Reference characterisation of first-occurrence deduplication: keep each
message whose fingerprint differs from every earlier kept fingerprint, which
is the same as keeping the head and recursing on the tail purged of the head's
fingerprint. -/
def keepFirstByFingerprint : List Message → List Message
  | [] => []
  | m :: ms =>
    m :: keepFirstByFingerprint (ms.filter fun m2 => fingerprint m2 != fingerprint m)
termination_by l => l.length
decreasing_by
  simp only [List.length_cons, Nat.lt_succ_iff]
  exact List.length_filter_le _ ms

/-- Double every double quote: model of `str.replace(/"/g, '""')`
(src/unnamed/part_002:19, src/content.js:359). -/
def doubleQuotesChars : List Char → List Char
  | [] => []
  | c :: rest =>
    if c == '"' then '"' :: '"' :: doubleQuotesChars rest
    else c :: doubleQuotesChars rest

/-- String form of `doubleQuotesChars`. -/
def doubleQuotes (s : String) : String := String.mk (doubleQuotesChars s.toList)

/-- The quoting condition of the module's `escapeCSV`
(src/unnamed/part_002:18): the value contains a double quote, comma, newline
or carriage return. -/
def needsQuoteCSV (s : String) : Bool :=
  s.toList.contains '"' || s.toList.contains ',' || s.toList.contains '\n'
    || s.toList.contains '\r'

/-- The quoting condition of the in-page `esc` (src/content.js:359) — no
carriage-return test. -/
def needsQuoteContentJs (s : String) : Bool :=
  s.toList.contains '"' || s.toList.contains ',' || s.toList.contains '\n'

/-- CSV field escaper `escapeCSV` of the CSV export module
(src/unnamed/part_002:16-22): quote and double internal quotes when the value
contains a double quote, comma, newline or carriage return. -/
def escapeCSV (s : String) : String :=
  if needsQuoteCSV s then "\"" ++ doubleQuotes s ++ "\"" else s

/-- The in-page exporter's field escaper `esc` (src/content.js:359).  Unlike
the module's `escapeCSV`, it does not test for a carriage return. -/
def escContentJs (s : String) : String :=
  if needsQuoteContentJs s then "\"" ++ doubleQuotes s ++ "\"" else s

/-- Collapse each doubled double quote back to a single one (RFC-4180
un-escaping, as worded by the claim). -/
def collapseQuotes : List Char → List Char
  | [] => []
  | [c] => [c]
  | c1 :: c2 :: rest =>
    if c1 == '"' && c2 == '"' then '"' :: collapseQuotes rest
    else c1 :: collapseQuotes (c2 :: rest)

/-- RFC-4180 field decoding as the claim words it: strip the surrounding double
quotes when present (first and last character both `"`), then collapse each
doubled double quote back to one. -/
def decodeCSVField (s : String) : String :=
  match s.toList with
  | c :: rest =>
    if c == '"' && rest.getLast? == some '"' then String.mk (collapseQuotes rest.dropLast)
    else s
  | [] => s

/-- Chat payload handed to the export coordinator and writers:
`{ title, messages }`. -/
structure ChatData where
  title : String
  messages : List Message
deriving DecidableEq

/-- Which export modules are attached to `window.GeminiExporter` when the
coordinator runs (src/content.js:653,661,669 test them as functions). -/
structure ExporterModules where
  markdownLoaded : Bool
  csvLoaded : Bool
  pdfLoaded : Bool
deriving DecidableEq

/-- Successful relay result of `handleExport` (src/background.js:36). -/
structure ExportAck where
  format : String
  messageCount : Nat
deriving DecidableEq

/-- The background relay's supported-format list (src/background.js:27). -/
def supportedFormats : List String := ["pdf", "markdown", "csv"]

/-- Background service-worker relay `handleExport` (src/background.js:18-37):
it validates the format first, then the data, and performs no extraction.
`none` models a null `data` (or one without a `messages` array). -/
def handleExport (format : String) (data : Option ChatData) : Except String ExportAck :=
  if !(supportedFormats.contains format) then
    Except.error ("Unsupported export format: " ++ format)
  else
    match data with
    | none => Except.error "No chat data to export"
    | some d =>
      if d.messages.length = 0 then Except.error "No chat data to export"
      else Except.ok ⟨format, d.messages.length⟩

/-- Body of the coordinator `exportChat` (src/content.js:640-683), before the
catch-all wrapping: data validity is checked first, then the format switch;
the default branch raises the unsupported-format error.  `none` models a
null/invalid `chatData`. -/
def exportChatBody (chatData : Option ChatData) (format : String)
    (mods : ExporterModules) : Except String Unit :=
  match chatData with
  | none => Except.error "Invalid chat data: expected an object with a \"messages\" array."
  | some cd =>
    if cd.messages.length = 0 then Except.error "No messages to export."
    else if format == "markdown" then
      if mods.markdownLoaded then Except.ok ()
      else Except.error "Markdown export module is not loaded."
    else if format == "csv" then
      if mods.csvLoaded then Except.ok ()
      else Except.error "CSV export module is not loaded."
    else if format == "pdf" then
      if mods.pdfLoaded then Except.ok ()
      else Except.error "PDF export module is not loaded."
    else
      Except.error ("Unsupported export format: \"" ++ format
        ++ "\". Use \"pdf\", \"markdown\", or \"csv\".")

/-- Coordinator `exportChat` (src/content.js:640-683): any thrown error is
rewrapped as `Export failed (<format>): <message>` by the catch block. -/
def exportChat (chatData : Option ChatData) (format : String)
    (mods : ExporterModules) : Except String Unit :=
  match exportChatBody chatData format mods with
  | Except.ok _ => Except.ok ()
  | Except.error e => Except.error ("Export failed (" ++ format ++ "): " ++ e)

/-- Characters kept by the filename sanitizer: the complement of the regex
class `[^a-z0-9_\-]` with the `i` flag, i.e. ASCII letters, digits, `_`, `-`. -/
def isFilenameChar (c : Char) : Bool := c.isAlpha || c.isDigit || c == '_' || c == '-'

/-- `sanitizeFilename` (src/content.js:328-330):
`(title || 'gemini-chat').replace(/[^a-z0-9_\-]/gi, '_').substring(0, 80)`.
`none` models a null/undefined title; `some ""` the empty string (both falsy). -/
def sanitizeFilename (title : Option String) : String :=
  let base := match title with
    | none => "gemini-chat"
    | some t => if t == "" then "gemini-chat" else t
  String.mk ((base.toList.map fun c => if isFilenameChar c then c else '_').take 80)

/-- Per-message lines pushed by `exportToMarkdown`
(src/lib/export-markdown.js:30-50): a role header, a blank line, the content —
blockquoted line by line for the user role, verbatim otherwise — and a
trailing blank line. -/
def messageLines (m : Message) : List String :=
  let roleLabel := if m.role == "user" then "You" else "Gemini"
  let ts := if m.timestamp != "" then " (" ++ m.timestamp ++ ")" else ""
  ("## " ++ roleLabel ++ ts) :: "" ::
    ((if m.role == "user" then (jsSplitNl m.content).map (fun l => "> " ++ l)
      else [m.content]) ++ [""])

/-- Concatenation of `messageLines` over the message list, in order. -/
def allMessageLines : List Message → List String
  | [] => []
  | m :: ms => messageLines m ++ allMessageLines ms

/-- The `lines` array built by `exportToMarkdown`
(src/lib/export-markdown.js:14-50); `exportDate` injects the
`new Date().toLocaleString()` value. -/
def exportToMarkdownLines (exportDate : String) (cd : ChatData) : List String :=
  let title := if cd.title == "" then "Untitled Chat" else cd.title
  ["# " ++ title, "",
   "*Exported on " ++ exportDate ++ " | " ++ toString cd.messages.length ++ " messages*",
   "", "---", ""] ++ allMessageLines cd.messages

/-- `exportToMarkdown` (src/lib/export-markdown.js:14-53): the joined payload. -/
def exportToMarkdown (exportDate : String) (cd : ChatData) : String :=
  String.intercalate "\n" (exportToMarkdownLines exportDate cd)

/-- Minimal DOM value: exactly the node data the embedded functions read.
`textNode` is a `Node.TEXT_NODE` with its `textContent`; `otherNode` stands
for any non-text non-element node (comment, etc.); `element` carries the
lower-cased tag name, the `id` attribute, the class list, the remaining
attributes and the child list, in document order. -/
inductive Dom where
  | textNode (s : String)
  | otherNode
  | element (tag : String) (idAttr : String) (classes : List String)
      (attrs : List (String × String)) (children : List Dom)

/-- The JS `className` string of a node (class list joined by single spaces);
`""` for non-elements (mirroring `node.className || ''`). -/
def domClassName : Dom → String
  | .element _ _ classes _ _ => String.intercalate " " classes
  | _ => ""

/-- `node.getAttribute(name)`: `none` is the JS `null` for a missing
attribute (non-elements have none). -/
def domGetAttr (n : Dom) (name : String) : Option String :=
  match n with
  | .element _ _ _ attrs _ => (attrs.find? fun kv => kv.1 == name).map (·.2)
  | _ => none

mutual
/-- `node.textContent`: concatenated text of the subtree. -/
def textContent : Dom → String
  | .textNode s => s
  | .otherNode => ""
  | .element _ _ _ _ children => textContentList children

/-- `textContent` over a child list. -/
def textContentList : List Dom → String
  | [] => ""
  | n :: rest => textContent n ++ textContentList rest
end

mutual
/-- First descendant (pre-order, excluding the root) whose tag is `t`:
`root.querySelector('t')` for a tag selector. -/
def querySelectorTag (n : Dom) (t : String) : Option Dom :=
  match n with
  | .element _ _ _ _ children => querySelectorTagList children t
  | _ => none

/-- Search of a node list (and their subtrees) for a tag selector. -/
def querySelectorTagList (ns : List Dom) (t : String) : Option Dom :=
  match ns with
  | [] => none
  | n :: rest =>
    match querySelectorTagHit n t with
    | some r => some r
    | none => querySelectorTagList rest t

/-- Match of the node itself, else of its subtree. -/
def querySelectorTagHit (n : Dom) (t : String) : Option Dom :=
  match n with
  | .element tag _ _ _ children =>
    if tag == t then some n else querySelectorTagList children t
  | _ => none
end

mutual
/-- First descendant (pre-order, excluding the root) carrying class `c`:
`root.querySelector('.c')` for a class selector. -/
def querySelectorClass (n : Dom) (c : String) : Option Dom :=
  match n with
  | .element _ _ _ _ children => querySelectorClassList children c
  | _ => none

/-- Search of a node list (and their subtrees) for a class selector. -/
def querySelectorClassList (ns : List Dom) (c : String) : Option Dom :=
  match ns with
  | [] => none
  | n :: rest =>
    match querySelectorClassHit n c with
    | some r => some r
    | none => querySelectorClassList rest c

/-- Match of the node itself, else of its subtree. -/
def querySelectorClassHit (n : Dom) (c : String) : Option Dom :=
  match n with
  | .element _ _ classes _ children =>
    if classes.contains c then some n else querySelectorClassList children c
  | _ => none
end

mutual
/-- All descendants (pre-order, excluding the root) whose tag is in `ts`:
`root.querySelectorAll(...)` for a tag-selector list. -/
def querySelectorAllTags (n : Dom) (ts : List String) : List Dom :=
  match n with
  | .element _ _ _ _ children => querySelectorAllTagsList children ts
  | _ => []

/-- Collection over a node list. -/
def querySelectorAllTagsList (ns : List Dom) (ts : List String) : List Dom :=
  match ns with
  | [] => []
  | n :: rest => querySelectorAllTagsHit n ts ++ querySelectorAllTagsList rest ts

/-- The node itself (when it matches) followed by its matching descendants. -/
def querySelectorAllTagsHit (n : Dom) (ts : List String) : List Dom :=
  match n with
  | .element tag _ _ _ children =>
    if ts.contains tag then n :: querySelectorAllTagsList children ts
    else querySelectorAllTagsList children ts
  | _ => []
end

/-- Whether a row subtree contains a `th` cell: `row.querySelector('th')`
converted to a boolean (src/content.js:106). -/
def rowHasTh (row : Dom) : Bool := (querySelectorTag row "th").isSome

/-- JS `\w` character class: ASCII letters, digits and underscore. -/
def isWordChar (c : Char) : Bool := c.isAlphanum || c == '_'

/-- Greedy `\w+` capture at the current position (`none` when empty). -/
def wordCapture (cs : List Char) : Option (List Char) :=
  let w := cs.takeWhile isWordChar
  if w.isEmpty then none else some w

/-- One attempt of the regex `/(?:language|lang)-(\w+)/` at a fixed position:
the `language-` alternative is tried first, then `lang-`, each followed by a
non-empty `\w+` capture. -/
def langMatchAt (cs : List Char) : Option (List Char) :=
  match (if ("language-".toList).isPrefixOf cs then wordCapture (cs.drop 9) else none) with
  | some w => some w
  | none => if ("lang-".toList).isPrefixOf cs then wordCapture (cs.drop 5) else none

/-- Left-to-right search of `/(?:language|lang)-(\w+)/`, returning the first
capture group: the JS `classes.match(...)` with `m[1]` extraction. -/
def langSearch : List Char → Option (List Char)
  | [] => none
  | c :: rest =>
    match langMatchAt (c :: rest) with
    | some w => some w
    | none => langSearch rest

/-- Capture of `/(?:language|lang)-(\w+)/` over a string, as an `Option`. -/
def regexLangCapture (s : String) : Option String := (langSearch s.toList).map String.mk

/-- The concatenated class string scanned by both `detectCodeLanguage`
variants: `(pre.className || '') + ' ' + ((pre.querySelector('code') || {}).className || '')`
(src/content.js:90, src/unnamed/part_000:118-119). -/
def codeBlockClassString (pre : Dom) : String :=
  domClassName pre ++ " " ++
    (match querySelectorTag pre "code" with
     | some codeEl => domClassName codeEl
     | none => "")

/-- JS `a || b` over attribute reads: the first truthy (non-null, non-empty)
value, if any. -/
def truthyOrElse (a b : Option String) : Option String :=
  match a with
  | some s => if s == "" then (match b with
      | some t => if t == "" then none else some t
      | none => none)
    else some s
  | none =>
    match b with
    | some t => if t == "" then none else some t
    | none => none

/-- The data-attribute step shared by both variants:
`pre.getAttribute('data-language') || pre.getAttribute('data-lang')`. -/
def dataAttrLang (pre : Dom) : Option String :=
  truthyOrElse (domGetAttr pre "data-language") (domGetAttr pre "data-lang")

/-- The allow-list of `knownLangs` (src/unnamed/part_000:128-132), verbatim. -/
def knownLangs : List String :=
  ["python", "javascript", "typescript", "java", "c++", "c#", "go",
   "rust", "ruby", "php", "swift", "kotlin", "sql", "html", "css",
   "bash", "shell", "json", "yaml", "xml", "markdown", "r", "scala"]

/-- The preceding-sibling step of src/unnamed/part_000:125-134: when a
previous element sibling exists with truthy `textContent` shorter than 30
characters, its trimmed lower-cased text is returned if it is a known
language name; in every other case the step yields `''`. -/
def siblingLang : Option Dom → String
  | none => ""
  | some prev =>
    let t := textContent prev
    if t != "" && t.length < 30 then
      let lower := jsToLower (jsTrim t)
      if knownLangs.contains lower then lower else ""
    else ""

/-- `detectCodeLanguage` of the standalone content script
(src/unnamed/part_000:117-136): class token, then data attribute, then the
known-language preceding sibling, else `''`.  `prevSib` is the node's
`previousElementSibling` (`none` for JS `null`). -/
def detectCodeLanguage (pre : Dom) (prevSib : Option Dom) : String :=
  match regexLangCapture (codeBlockClassString pre) with
  | some l => l
  | none =>
    match dataAttrLang pre with
    | some l => l
    | none => siblingLang prevSib

/-- `detectCodeLanguage` of the in-page content script (src/content.js:89-94):
class token, then data attribute, else `''` — it has no preceding-sibling
step. -/
def detectCodeLanguageMain (pre : Dom) : String :=
  match regexLangCapture (codeBlockClassString pre) with
  | some l => l
  | none =>
    match dataAttrLang pre with
    | some l => l
    | none => ""

/-- The block-level tag set of src/content.js:82. -/
def blockTags : List String :=
  ["p", "div", "h1", "h2", "h3", "h4", "h5", "h6",
   "blockquote", "section", "article", "header", "footer", "br", "hr"]

/-- Decode `/^h[1-6]$/` and `parseInt(tag[1])` (src/content.js:72-73). -/
def headingLevel (tag : String) : Option Nat :=
  if tag == "h1" then some 1
  else if tag == "h2" then some 2
  else if tag == "h3" then some 3
  else if tag == "h4" then some 4
  else if tag == "h5" then some 5
  else if tag == "h6" then some 6
  else none

/-- One table row rendered by `formatTable` (src/content.js:102-108):
`'| ' + cells.join(' | ') + ' |\n'` over the trimmed `th`/`td` cell texts. -/
def tableRowLine (row : Dom) : String :=
  let cells := (querySelectorAllTags row ["th", "td"]).map fun c => jsTrim (textContent c)
  "| " ++ String.intercalate " | " cells ++ " |\n"

/-- The `---` separator emitted after a first row that contains a `th`. -/
def tableSepLine (row : Dom) : String :=
  let cells := (querySelectorAllTags row ["th", "td"]).map fun c => jsTrim (textContent c)
  "| " ++ String.intercalate " | " (cells.map fun _ => "---") ++ " |\n"

/-- `formatTable` (src/content.js:102-108): each `tr` descendant becomes a
pipe-delimited line; a separator follows the first row when it has a `th`. -/
def formatTableRows (table : Dom) : List String :=
  match querySelectorAllTags table ["tr"] with
  | [] => []
  | row0 :: rows =>
    (tableRowLine row0 :: (if rowHasTh row0 then [tableSepLine row0] else []))
      ++ rows.map tableRowLine

mutual
/-- `processNode` (src/content.js:26-87): the recursive document-tree walker.
`insidePre` models `isInsidePre(node)` along the walked path (the root handed
to `extractFormattedText` is assumed to have no `pre` ancestor, which holds
for every call site; note the `pre`/`code-block` case never recurses, so the
flag can never become true below such a node). -/
def processNode (insidePre : Bool) (n : Dom) : List String :=
  match n with
  | .textNode s => [s]
  | .otherNode => []
  | .element tag idAttr classes _attrs children =>
    if tag == "span" && classes.contains "screen-reader-only" then []
    else if idAttr == "gce-root" || idAttr == "gce-toast" then []
    else if tag == "pre" || tag == "code-block" then
      let codeEl := match querySelectorTag n "code" with
        | some c => c
        | none => n
      ["\n```" ++ detectCodeLanguageMain n ++ "\n" ++ jsTrim (textContent codeEl) ++ "\n```\n"]
    else if tag == "code" && !insidePre then ["`" ++ textContent n ++ "`"]
    else if tag == "img" then ["[Image attachment]"]
    else if tag == "ul" || tag == "ol" then
      "\n" :: processListItems insidePre (tag == "ol") 0 children
    else if tag == "li" then processChildren insidePre children
    else if tag == "table" then "\n" :: (formatTableRows n ++ ["\n"])
    else if tag == "strong" || tag == "b" then
      "**" :: (processChildren insidePre children ++ ["**"])
    else if tag == "em" || tag == "i" then
      "*" :: (processChildren insidePre children ++ ["*"])
    else if tag == "br" then ["\n"]
    else if tag == "hr" then ["\n---\n"]
    else
      match headingLevel tag with
      | some lvl =>
        ("\n" ++ String.mk (List.replicate lvl '#') ++ " ")
          :: (processChildren insidePre children ++ ["\n"])
      | none =>
        if tag == "blockquote" then
          "\n> " :: (processChildren insidePre children ++ ["\n"])
        else if blockTags.contains tag then
          "\n" :: (processChildren insidePre children ++ ["\n"])
        else processChildren insidePre children

/-- The `for (const child of node.childNodes) processNode(child, parts)` loop. -/
def processChildren (insidePre : Bool) (ns : List Dom) : List String :=
  match ns with
  | [] => []
  | n :: rest => processNode insidePre n ++ processChildren insidePre rest

/-- The `querySelectorAll(':scope > li').forEach((li, i) => ...)` loop of the
`ul`/`ol` case (src/content.js:49-57): direct `li` children only, each
prefixed with `- ` or its 1-based ordinal, followed by a newline. -/
def processListItems (insidePre : Bool) (ordered : Bool) (idx : Nat) (ns : List Dom) :
    List String :=
  match ns with
  | [] => []
  | n :: rest =>
    match n with
    | .element tag _ _ _ _ =>
      if tag == "li" then
        (if ordered then toString (idx + 1) ++ ". " else "- ")
          :: (processNode insidePre n ++ ("\n" :: processListItems insidePre ordered (idx + 1) rest))
      else processListItems insidePre ordered idx rest
    | _ => processListItems insidePre ordered idx rest
end

/-- `extractFormattedText` (src/content.js:19-24): empty for a null element,
else the joined walker output, trimmed. -/
def extractFormattedText (el : Option Dom) : String :=
  match el with
  | none => ""
  | some e => jsTrim (String.join (processNode false e))

/-- The fallback chain of src/content.js:134:
`uq.querySelector('.query-text') || uq.querySelector('.query-content') || uq.querySelector('user-query-content') || uq`. -/
def resolveUserQueryEl (uq : Dom) : Dom :=
  match querySelectorClass uq "query-text" with
  | some e => e
  | none =>
    match querySelectorClass uq "query-content" with
    | some e => e
    | none =>
      match querySelectorTag uq "user-query-content" with
      | some e => e
      | none => uq

/-- The fallback chain of src/content.js:140:
`mr.querySelector('message-content') || mr.querySelector('.model-response-text') || mr`. -/
def resolveModelResponseEl (mr : Dom) : Dom :=
  match querySelectorTag mr "message-content" with
  | some e => e
  | none =>
    match querySelectorClass mr "model-response-text" with
    | some e => e
    | none => mr

/-- The user-side text a container yields (src/content.js:132-135): `""` when
the container has no `user-query` descendant. -/
def userQueryText (c : Dom) : String :=
  match querySelectorTag c "user-query" with
  | none => ""
  | some uq => extractFormattedText (some (resolveUserQueryEl uq))

/-- The model-side text a container yields (src/content.js:138-141). -/
def modelResponseText (c : Dom) : String :=
  match querySelectorTag c "model-response" with
  | none => ""
  | some mr => extractFormattedText (some (resolveModelResponseEl mr))

/-- The messages one `.conversation-container` contributes
(src/content.js:130-147): a user turn if the user-query text is truthy, then
an assistant turn if the model-response text is truthy. -/
def extractContainer (c : Dom) : List Message :=
  (match querySelectorTag c "user-query" with
   | none => []
   | some uq =>
     let text := extractFormattedText (some (resolveUserQueryEl uq))
     if text == "" then [] else [⟨"user", text, ""⟩])
  ++
  (match querySelectorTag c "model-response" with
   | none => []
   | some mr =>
     let text := extractFormattedText (some (resolveModelResponseEl mr))
     if text == "" then [] else [⟨"assistant", text, ""⟩])

/-- `extractCurrentMessages` (src/content.js:120-151) over the container list
returned by `scroller.querySelectorAll('.conversation-container')`. -/
def extractCurrentMessages : List Dom → List Message
  | [] => []
  | c :: rest => extractContainer c ++ extractCurrentMessages rest

/-- Demo `user-query` subtree whose `.query-text` element holds only
whitespace. -/
def demoUq : Dom :=
  Dom.element "user-query" "" [] []
    [Dom.element "div" "" ["query-text"] [] [Dom.textNode "   "]]

/-- Demo `model-response` subtree with the text `Hello!`. -/
def demoMr : Dom :=
  Dom.element "model-response" "" [] []
    [Dom.element "message-content" "" [] [] [Dom.textNode "Hello!"]]

/-- Demo `.conversation-container` combining `demoUq` and `demoMr`. -/
def demoContainer : Dom := Dom.element "div" "" ["conversation-container"] [] [demoUq, demoMr]

/-- A `pre` code block with no class and no data attribute. -/
def cexPre : Dom := Dom.element "pre" "" [] [] [Dom.textNode "print(1)"]

/-- A preceding sibling whose text is exactly `Python`. -/
def cexSib : Dom := Dom.element "div" "" [] [] [Dom.textNode "Python"]

/-- The spec's round-trip example transcript: `Demo` with a user `Hello` and
an assistant reply carrying a fenced python block. -/
def demoChat : ChatData :=
  ⟨"Demo", [⟨"user", "Hello", ""⟩, ⟨"assistant", "Hi there\n```python\nprint(1)\n```", ""⟩]⟩

/-- A 201-character content: one leading space, then 200 `a`s. -/
def cexLongMsg : Message := ⟨"user", String.mk (' ' :: List.replicate 200 'a'), ""⟩

/-- A 199-character content of `a`s. -/
def cexShortMsg : Message := ⟨"user", String.mk (List.replicate 199 'a'), ""⟩

/-- A measurement sequence that grows on every one of the first 98 probes and
is constant afterwards. -/
def cexCounts : Nat → Nat := fun j => min j 98

/-! ### Lemmas about the convergence loop -/

/-- The loop performs at most `i + fuel` probes. -/
theorem scrollLoop_fst_le (counts : Nat → Nat) :
    ∀ fuel i last stable, (scrollLoop counts fuel i last stable).1 ≤ i + fuel := by
  intro fuel
  induction fuel with
  | zero => intro i last stable; simp [scrollLoop]
  | succ f ih =>
    intro i last stable
    simp only [scrollLoop]
    by_cases hc : counts (i+1) = last
    · rw [if_pos hc]
      by_cases h3 : stable + 1 ≥ 3
      · rw [if_pos h3]; omega
      · rw [if_neg h3]; have := ih (i+1) last (stable+1); omega
    · rw [if_neg hc]; have := ih (i+1) (counts (i+1)) 0; omega

/-- Once the measurement sequence is constant at the current `last` value, the
loop exits through the stability break after exactly `3 - stable` further
probes (given enough fuel). -/
theorem scrollLoop_const_exit (counts : Nat → Nat) :
    ∀ fuel i last stable, (∀ j, i + 1 ≤ j → counts j = last) → stable ≤ 2 →
      3 - stable ≤ fuel →
      scrollLoop counts fuel i last stable = (i + (3 - stable), true) := by
  intro fuel
  induction fuel with
  | zero => intro i last stable _ hs hf; omega
  | succ f ih =>
    intro i last stable h hs hf
    have hc : counts (i+1) = last := h (i+1) (Nat.le_refl _)
    simp only [scrollLoop]
    rw [if_pos hc]
    by_cases h3 : stable + 1 ≥ 3
    · rw [if_pos h3]
      have : stable = 2 := by omega
      subst this
      rfl
    · rw [if_neg h3]
      have step := ih (i+1) last (stable+1) (fun j hj => h j (by omega)) (by omega) (by omega)
      rw [step]
      have : i + 1 + (3 - (stable + 1)) = i + (3 - stable) := by omega
      rw [this]

/-- Main reachability lemma: from any iteration `i ≤ k` with the loop
invariant `last = counts i`, a sequence that stops growing after probe `k`
leads to a stability exit within `k + 3` total probes, provided
`k + 3 ≤ 100 = i + fuel`. -/
theorem scrollLoop_reaches (counts : Nat → Nat) (k : Nat)
    (hstop : ∀ j, k ≤ j → counts j = counts k) (hk : k + 3 ≤ 100) :
    ∀ d i fuel last stable, i + d = k → i + fuel = 100 → last = counts i → stable ≤ 2 →
      (scrollLoop counts fuel i last stable).1 ≤ k + 3 ∧
        (scrollLoop counts fuel i last stable).2 = true := by
  intro d
  induction d with
  | zero =>
    intro i fuel last stable hik hfuel hlast hs
    have hik2 : i = k := by omega
    subst hik2
    have hconst : ∀ j, i + 1 ≤ j → counts j = last := by
      intro j hj
      rw [hlast]
      exact hstop j (by omega)
    rw [scrollLoop_const_exit counts fuel i last stable hconst hs (by omega)]
    exact ⟨by omega, rfl⟩
  | succ d ih =>
    intro i fuel last stable hik hfuel hlast hs
    have hfuelpos : 0 < fuel := by omega
    cases fuel with
    | zero => omega
    | succ f =>
      simp only [scrollLoop]
      by_cases hc : counts (i+1) = last
      · rw [if_pos hc]
        by_cases h3 : stable + 1 ≥ 3
        · rw [if_pos h3]
          exact ⟨by omega, rfl⟩
        · rw [if_neg h3]
          exact ih (i+1) f last (stable+1) (by omega) (by omega) (by rw [hc]) (by omega)
      · rw [if_neg hc]
        exact ih (i+1) f (counts (i+1)) 0 (by omega) (by omega) rfl (by omega)

/-- Claim C1 (amended).  For every injectable measurement sequence `counts`
whose turn count stops growing after `k` probes, with `k + 3` within the
100-attempt bound, the scroll-to-top convergence loop of
`scrollToTopAndLoadAll` exits through its stability break (counter
incremented on an unchanged count, reset otherwise, exit at 3) within `k + 3`
probes; and no run of the loop ever performs more than 100 perturbation
attempts. -/
theorem scrollToTopAndLoadAll_stable_within (counts : Nat → Nat) (k : Nat)
    (hstop : stopsGrowingAfter counts k) (hk : k + 3 ≤ 100) :
    (scrollToTopAndLoadAll counts).2 = true ∧
      (scrollToTopAndLoadAll counts).1 ≤ k + 3 ∧
      ∀ other : Nat → Nat, (scrollToTopAndLoadAll other).1 ≤ 100 := by
  have h := scrollLoop_reaches counts k hstop hk k 0 100 (counts 0) 0 (by omega) (by omega)
    rfl (by omega)
  refine ⟨h.2, h.1, fun other => ?_⟩
  have := scrollLoop_fst_le other 100 0 (other 0) 0
  simpa [scrollToTopAndLoadAll] using this

/-- Witness for C1's theorem: the constant sequence (stops growing after 0
probes) exits stably after at most 3 probes. -/
theorem scrollToTopAndLoadAll_stable_within_witness :
    (scrollToTopAndLoadAll (fun _ => 7)).2 = true ∧
      (scrollToTopAndLoadAll (fun _ => 7)).1 ≤ 3 :=
  ⟨(scrollToTopAndLoadAll_stable_within (fun _ => 7) 0 (fun _ _ => rfl) (by decide)).1,
   (scrollToTopAndLoadAll_stable_within (fun _ => 7) 0 (fun _ _ => rfl) (by decide)).2.1⟩

/-- Counterexample to claim C1 as stated (without the `k + 3 ≤ 100` proviso):
`cexCounts` grows on each of the first 98 probes and stops growing after
probe 98, yet the loop exhausts its 100 attempts with the stability counter
at 2 and never reaches the stable exit. -/
theorem scrollToTopAndLoadAll_claim_counterexample :
    ¬ (∀ (counts : Nat → Nat) (k : Nat), stopsGrowingAfter counts k →
        ((scrollToTopAndLoadAll counts).2 = true ∧
          (scrollToTopAndLoadAll counts).1 ≤ k + 3 ∧
          (scrollToTopAndLoadAll counts).1 ≤ 100)) := by
  intro h
  have hstop : stopsGrowingAfter cexCounts 98 := by
    intro j hj
    show min j 98 = min 98 98
    omega
  have hres := (h cexCounts 98 hstop).1
  have hfalse : (scrollToTopAndLoadAll cexCounts).2 = false := by decide
  rw [hres] at hfalse
  exact Bool.noConfusion hfalse

/-! ### Lemmas about deduplication -/

/-- Boolean membership agrees with propositional membership. -/
theorem contains_iff_mem {α : Type} [BEq α] [LawfulBEq α] (l : List α) (a : α) :
    l.contains a = true ↔ a ∈ l :=
  List.elem_iff

/-- `dedupGo` never lengthens the list. -/
theorem dedupGo_length_le (l : List Message) : ∀ seen, (dedupGo seen l).length ≤ l.length := by
  induction l with
  | nil => intro seen; simp [dedupGo]
  | cons m ms ih =>
    intro seen
    cases hb : seen.contains (fingerprint m)
    · simp only [dedupGo, hb, Bool.false_eq_true, if_false, List.length_cons]
      have := ih (fingerprint m :: seen)
      omega
    · simp only [dedupGo, hb, if_true, List.length_cons]
      have := ih seen
      omega

/-- The output of `dedupGo` has pairwise-distinct fingerprints, none of which
was already in `seen`. -/
theorem dedupGo_nodup (l : List Message) : ∀ seen,
    List.Nodup ((dedupGo seen l).map fingerprint) ∧
      ∀ m ∈ dedupGo seen l, fingerprint m ∉ seen := by
  induction l with
  | nil => intro seen; simp [dedupGo]
  | cons m ms ih =>
    intro seen
    cases hb : seen.contains (fingerprint m)
    · have ih2 := ih (fingerprint m :: seen)
      simp only [dedupGo, hb, Bool.false_eq_true, if_false, List.map_cons, List.nodup_cons]
      refine ⟨⟨?_, ih2.1⟩, ?_⟩
      · intro hmem
        obtain ⟨x, hx, hfx⟩ := List.mem_map.1 hmem
        exact (ih2.2 x hx) (by rw [hfx]; exact List.mem_cons_self _ _)
      · intro x hx
        rcases List.mem_cons.1 hx with h | h
        · subst h
          intro hmem
          rw [← contains_iff_mem] at hmem
          rw [hb] at hmem
          exact Bool.noConfusion hmem
        · exact fun hmem => (ih2.2 x h) (List.mem_cons_of_mem _ hmem)
    · have ih2 := ih seen
      simp only [dedupGo, hb, if_true]
      exact ih2

/-- A list with pairwise-distinct fingerprints, none already seen, passes
through `dedupGo` untouched. -/
theorem dedupGo_eq_self (l : List Message) : ∀ seen,
    List.Nodup (l.map fingerprint) → (∀ m ∈ l, fingerprint m ∉ seen) →
    dedupGo seen l = l := by
  induction l with
  | nil => intro seen _ _; rfl
  | cons m ms ih =>
    intro seen hnodup hnot
    have hb : seen.contains (fingerprint m) = false := by
      cases hb : seen.contains (fingerprint m)
      · rfl
      · exact absurd (contains_iff_mem _ _ |>.1 hb) (hnot m (List.mem_cons_self _ _))
    simp only [dedupGo, hb, Bool.false_eq_true, if_false]
    simp only [List.map_cons, List.nodup_cons] at hnodup
    refine congrArg (m :: ·) (ih (fingerprint m :: seen) hnodup.2 ?_)
    intro x hx
    intro hmem
    rcases List.mem_cons.1 hmem with h | h
    · exact hnodup.1 (h ▸ List.mem_map_of_mem fingerprint hx)
    · exact hnot x (List.mem_cons_of_mem _ hx) h

/-- Unfolding of Boolean membership over a cons cell. -/
theorem contains_cons_eq (l : List String) (a b : String) :
    (a :: l).contains b = (b == a || l.contains b) := by
  show List.elem b (a :: l) = (b == a || List.elem b l)
  cases h : b == a
  · simp only [List.elem, h, Bool.false_or]
  · simp only [List.elem, h, Bool.true_or]

/-- `dedupGo` with a `seen` set computes the keep-the-first-occurrence
filtering of the messages not already seen. -/
theorem dedupGo_eq_keepFirst :
    ∀ (n : Nat) (l : List Message), l.length ≤ n → ∀ seen,
      dedupGo seen l
        = keepFirstByFingerprint (l.filter fun m => !(seen.contains (fingerprint m))) := by
  intro n
  induction n with
  | zero =>
    intro l hl seen
    have : l = [] := List.length_eq_zero.1 (Nat.le_zero.1 hl)
    subst this
    simp [dedupGo, keepFirstByFingerprint]
  | succ n ih =>
    intro l hl seen
    match l with
    | [] => simp [dedupGo, keepFirstByFingerprint]
    | m :: ms =>
      simp only [List.length_cons] at hl
      cases hb : seen.contains (fingerprint m)
      · simp only [dedupGo, hb, Bool.false_eq_true, if_false, List.filter_cons,
          Bool.not_false, if_true, keepFirstByFingerprint]
        refine congrArg (m :: ·) ?_
        rw [List.filter_filter]
        rw [ih ms (by omega) (fingerprint m :: seen)]
        refine congrArg keepFirstByFingerprint (List.filter_congr ?_)
        intro a _
        rw [contains_cons_eq, Bool.not_or]
        rfl
      · simp only [dedupGo, hb, if_true, List.filter_cons, Bool.not_true,
          Bool.false_eq_true, if_false]
        exact ih ms (by omega) seen

/-- Claim C2 (amended).  `deduplicateMessages` fingerprints each message as
its role, `'::'`, and the trim of the first 200 characters of its content
(`fingerprint`), iterates the messages in order and keeps exactly the first
message bearing each fingerprint, discarding every later message whose
fingerprint was already seen — i.e. it computes `keepFirstByFingerprint`. -/
theorem deduplicateMessages_keeps_first_occurrence (msgs : List Message) :
    deduplicateMessages msgs = keepFirstByFingerprint msgs := by
  have h := dedupGo_eq_keepFirst msgs.length msgs (Nat.le_refl _) []
  simpa [deduplicateMessages, List.filter_true] using h

/-- Counterexample to claim C2 as stated: with the claim's trim-then-truncate
fingerprint the two demo messages are distinct (so the claimed algorithm keeps
both), yet the code discards the second one, because it truncates to 200
characters first and trims after. -/
theorem deduplicateMessages_fingerprint_counterexample :
    fingerprintAsClaimed cexLongMsg ≠ fingerprintAsClaimed cexShortMsg ∧
      deduplicateMessages [cexLongMsg, cexShortMsg] = [cexLongMsg] ∧
      deduplicateAsClaimed [cexLongMsg, cexShortMsg] = [cexLongMsg, cexShortMsg] :=
  ⟨by decide, by decide, by decide⟩

/-- Claim C8 (confirmed).  Deduplication is idempotent, never lengthens the
list, and yields pairwise-distinct fingerprints. -/
theorem deduplicateMessages_idempotent (msgs : List Message) :
    deduplicateMessages (deduplicateMessages msgs) = deduplicateMessages msgs ∧
      (deduplicateMessages msgs).length ≤ msgs.length ∧
      List.Nodup ((deduplicateMessages msgs).map fingerprint) := by
  have h := dedupGo_nodup msgs []
  exact ⟨dedupGo_eq_self (dedupGo [] msgs) [] h.1 (fun m _ => List.not_mem_nil _),
    dedupGo_length_le msgs [], h.1⟩

/-! ### Lemmas about CSV escaping -/

/-- Rebuilding a string from its characters is the identity. -/
theorem mk_toList (s : String) : String.mk s.toList = s := rfl

/-- Doubling quotes never shortens the character list. -/
theorem doubleQuotesChars_length (cs : List Char) :
    cs.length ≤ (doubleQuotesChars cs).length := by
  induction cs with
  | nil => simp [doubleQuotesChars]
  | cons c rest ih =>
    cases h : c == '"'
    · simp only [doubleQuotesChars, h, Bool.false_eq_true, if_false, List.length_cons]
      omega
    · simp only [doubleQuotesChars, h, if_true, List.length_cons]
      omega

/-- Character list of the quoted form. -/
theorem quotedForm_toList (s : String) :
    ("\"" ++ doubleQuotes s ++ "\"" : String).toList
      = '"' :: (doubleQuotesChars s.toList ++ ['"']) := rfl

/-- The quoted form is strictly longer than the original, hence distinct. -/
theorem quotedForm_ne_self (s : String) : ("\"" ++ doubleQuotes s ++ "\"" : String) ≠ s := by
  intro h
  have h1 : ('"' :: (doubleQuotesChars s.toList ++ ['"'])) = s.toList := by
    rw [← quotedForm_toList s]
    exact congrArg String.toList h
  have h2 := congrArg List.length h1
  simp only [List.length_cons, List.length_append, List.length_singleton] at h2
  have h3 := doubleQuotesChars_length s.toList
  omega

/-- The Boolean quoting condition of `escapeCSV`, as a proposition. -/
theorem needsQuoteCSV_iff (s : String) :
    needsQuoteCSV s = true ↔
      ('"' ∈ s.toList ∨ ',' ∈ s.toList ∨ '\n' ∈ s.toList ∨ '\r' ∈ s.toList) := by
  simp [needsQuoteCSV, Bool.or_eq_true, contains_iff_mem, or_assoc]

/-- The Boolean quoting condition of the in-page `esc`, as a proposition. -/
theorem needsQuoteContentJs_iff (s : String) :
    needsQuoteContentJs s = true ↔
      ('"' ∈ s.toList ∨ ',' ∈ s.toList ∨ '\n' ∈ s.toList) := by
  simp [needsQuoteContentJs, Bool.or_eq_true, contains_iff_mem, or_assoc]

/-- Claim C3 (amended).  For the CSV export module's `escapeCSV`, a field is
emitted surrounded by double quotes with internal quotes doubled if and only
if it contains a double quote, comma, newline or carriage return, and is
emitted unchanged otherwise; the spec's example escapes as stated.  The
in-page writer's `esc` instead tests only double quote, comma and newline
(no carriage return), with the same dichotomy over that smaller condition. -/
theorem escapeCSV_quoting_characterization (s : String) :
    (escapeCSV s = "\"" ++ doubleQuotes s ++ "\"" ↔
      ('"' ∈ s.toList ∨ ',' ∈ s.toList ∨ '\n' ∈ s.toList ∨ '\r' ∈ s.toList)) ∧
    (escapeCSV s = s ↔
      ¬ ('"' ∈ s.toList ∨ ',' ∈ s.toList ∨ '\n' ∈ s.toList ∨ '\r' ∈ s.toList)) ∧
    (escContentJs s = s ↔ ¬ ('"' ∈ s.toList ∨ ',' ∈ s.toList ∨ '\n' ∈ s.toList)) ∧
    escapeCSV "He said \"hi\", then left" = "\"He said \"\"hi\"\", then left\"" ∧
    escContentJs "He said \"hi\", then left" = "\"He said \"\"hi\"\", then left\"" := by
  refine ⟨?_, ?_, ?_, by decide, by decide⟩
  · rw [← needsQuoteCSV_iff]
    cases h : needsQuoteCSV s
    · simp only [escapeCSV, h, Bool.false_eq_true, if_false]
      constructor
      · intro he
        exact absurd he.symm (quotedForm_ne_self s)
      · intro he
        exact he.elim
    · simp [escapeCSV, h]
  · rw [← needsQuoteCSV_iff]
    cases h : needsQuoteCSV s
    · simp [escapeCSV, h]
    · simp only [escapeCSV, h, if_true]
      constructor
      · intro he
        exact absurd he (quotedForm_ne_self s)
      · intro hn
        exact absurd (by trivial) hn
  · rw [← needsQuoteContentJs_iff]
    cases h : needsQuoteContentJs s
    · simp [escContentJs, h]
    · simp only [escContentJs, h, if_true]
      constructor
      · intro he
        exact absurd he (quotedForm_ne_self s)
      · intro hn
        exact absurd (by trivial) hn

/-- Counterexample to claim C3 as stated: the in-page CSV writer's `esc`
(src/content.js:359) emits the field consisting of a single carriage return
unchanged and unquoted, although it contains a carriage return. -/
theorem escContentJs_carriage_return_counterexample :
    ('\r' ∈ (String.mk ['\r']).toList) ∧
      escContentJs (String.mk ['\r']) = String.mk ['\r'] :=
  ⟨by decide, by decide⟩

/-- Collapsing undoes doubling. -/
theorem collapse_doubleQuotesChars (cs : List Char) :
    collapseQuotes (doubleQuotesChars cs) = cs := by
  induction cs with
  | nil => rfl
  | cons c rest ih =>
    cases h : c == '"'
    · simp only [doubleQuotesChars, h, Bool.false_eq_true, if_false]
      cases rest with
      | nil => simp [doubleQuotesChars, collapseQuotes]
      | cons r rs =>
        have hne : ∃ x l, doubleQuotesChars (r :: rs) = x :: l := by
          cases h2 : r == '"' <;> simp [doubleQuotesChars, h2]
        obtain ⟨x, l, hxl⟩ := hne
        rw [hxl]
        simp only [collapseQuotes, h, Bool.false_and, Bool.false_eq_true, if_false]
        rw [← hxl, ih]
    · have hc : c = '"' := by simpa using h
      subst hc
      simp only [doubleQuotesChars, if_true]
      simp only [collapseQuotes, ih]
      simp
  
/-- Claim C10 (confirmed).  CSV escaping is lossless under the claim's
RFC-4180 decoding, and injective. -/
theorem escapeCSV_lossless_injective (s t : String) :
    decodeCSVField (escapeCSV s) = s ∧ (escapeCSV s = escapeCSV t → s = t) := by
  have round : ∀ u : String, decodeCSVField (escapeCSV u) = u := by
    intro u
    cases h : needsQuoteCSV u
    · simp only [escapeCSV, h, Bool.false_eq_true, if_false]
      have hq : '"' ∉ u.toList := by
        intro hmem
        have : needsQuoteCSV u = true := (needsQuoteCSV_iff u).2 (Or.inl hmem)
        rw [h] at this
        exact Bool.noConfusion this
      unfold decodeCSVField
      cases hl : u.toList with
      | nil => rfl
      | cons c cs' =>
        have hcne : (c == '"') = false := by
          cases hcc : c == '"'
          · rfl
          · exact absurd (hl ▸ List.mem_cons_self c cs') (by
              have : c = '"' := by simpa using hcc
              rw [this] at hl ⊢
              intro hmem
              exact hq (hl ▸ List.mem_cons_self _ _))
        simp [hcne]
    · simp only [escapeCSV, h, if_true]
      have hl := quotedForm_toList u
      unfold decodeCSVField
      rw [hl]
      simp only [List.getLast?_concat, List.dropLast_concat, beq_self_eq_true, Bool.and_self,
        if_true]
      rw [collapse_doubleQuotesChars]
      exact mk_toList u
  refine ⟨round s, fun h => ?_⟩
  have hs := round s
  rw [h, round t] at hs
  exact hs.symm

/-- Witness for C10's theorem at the concrete field `a,b`. -/
theorem escapeCSV_lossless_injective_witness :
    decodeCSVField (escapeCSV "a,b") = "a,b" ∧ ("a,b" : String) = "a,b" :=
  ⟨(escapeCSV_lossless_injective "a,b" "a,b").1,
   (escapeCSV_lossless_injective "a,b" "a,b").2 rfl⟩

/-! ### Export-request validation -/

/-- Claim C7 (amended).  For a format outside {pdf, markdown, csv}: the
background relay `handleExport` rejects with the unsupported-format error
without reading the data (its result is data-independent); the coordinator
`exportChat` rejects with the wrapped unsupported-format error whenever the
chat data passes its up-front validity checks (which run first), and its
result never depends on which exporter modules are loaded — no extraction or
export work is reachable for such a request. -/
theorem export_format_validation (format : String) (data : Option ChatData)
    (cd : ChatData) (mods mods2 : ExporterModules)
    (hf : supportedFormats.contains format = false) :
    handleExport format data = Except.error ("Unsupported export format: " ++ format) ∧
      (∀ data2 : Option ChatData, handleExport format data = handleExport format data2) ∧
      (cd.messages.length ≠ 0 →
        exportChat (some cd) format mods
          = Except.error ("Export failed (" ++ format ++ "): "
              ++ ("Unsupported export format: \"" ++ format
                  ++ "\". Use \"pdf\", \"markdown\", or \"csv\"."))) ∧
      exportChat (some cd) format mods = exportChat (some cd) format mods2 := by
  have hnm : format ∉ supportedFormats := by
    intro hm
    have := (contains_iff_mem supportedFormats format).2 hm
    rw [hf] at this
    exact Bool.noConfusion this
  have hmem := hnm
  simp only [supportedFormats, List.mem_cons, List.not_mem_nil, or_false] at hmem
  push_neg at hmem
  have hpdf : (format == "pdf") = false := beq_eq_false_iff_ne.mpr hmem.1
  have hmd : (format == "markdown") = false := beq_eq_false_iff_ne.mpr hmem.2.1
  have hcsv : (format == "csv") = false := beq_eq_false_iff_ne.mpr hmem.2.2
  refine ⟨?_, ?_, ?_, ?_⟩
  · simp [handleExport, hf, hnm]
  · intro data2
    simp [handleExport, hf, hnm]
  · intro hlen
    simp only [exportChat, exportChatBody]
    rw [if_neg hlen]
    simp only [hmd, hcsv, hpdf, Bool.false_eq_true, if_false]
  · simp only [exportChat, exportChatBody]
    by_cases hlen : cd.messages.length = 0
    · rw [if_pos hlen, if_pos hlen]
    · rw [if_neg hlen, if_neg hlen]
      simp only [hmd, hcsv, hpdf, Bool.false_eq_true, if_false]

/-- Witness for C7's theorem at the concrete unsupported format `xml`. -/
theorem export_format_validation_witness :
    handleExport "xml" none = Except.error ("Unsupported export format: " ++ "xml") ∧
      exportChat (some ⟨"T", [⟨"user", "hi", ""⟩]⟩) "xml" ⟨true, true, true⟩
        = Except.error ("Export failed (" ++ "xml" ++ "): "
            ++ ("Unsupported export format: \"" ++ "xml"
                ++ "\". Use \"pdf\", \"markdown\", or \"csv\".")) := by
  have h := export_format_validation "xml" none ⟨"T", [⟨"user", "hi", ""⟩]⟩
    ⟨true, true, true⟩ ⟨true, true, true⟩ (by decide)
  exact ⟨h.1, h.2.2.1 (by decide)⟩

/-- Counterexample to claim C7 as stated: the coordinator validates the chat
data before the format, so the unsupported format `xml` submitted with an
empty message list is rejected with the no-messages error, not the
unsupported-format error. -/
theorem exportChat_unsupported_format_counterexample :
    ("xml" ∉ supportedFormats) ∧
      exportChat (some ⟨"T", []⟩) "xml" ⟨true, true, true⟩
        = Except.error "Export failed (xml): No messages to export." ∧
      exportChat (some ⟨"T", []⟩) "xml" ⟨true, true, true⟩
        ≠ Except.error
            "Export failed (xml): Unsupported export format: \"xml\". Use \"pdf\", \"markdown\", or \"csv\"." := by
  refine ⟨by decide, rfl, ?_⟩
  intro h
  have h0 : exportChat (some ⟨"T", []⟩) "xml" ⟨true, true, true⟩
      = Except.error "Export failed (xml): No messages to export." := rfl
  rw [h0] at h
  exact absurd (Except.error.inj h) (by decide)

/-! ### Filename sanitizing -/

/-- Claim C9 (confirmed).  `sanitizeFilename` falls back to the non-empty name
`gemini-chat` on a falsy (null or empty) title; its output consists only of
ASCII letters, digits, underscores and hyphens, has length at most 80, and is
obtained by replacing every other character of the (truncated) title with an
underscore. -/
theorem sanitizeFilename_safety (t : String) :
    sanitizeFilename none = "gemini-chat" ∧
      sanitizeFilename (some "") = "gemini-chat" ∧
      (∀ c ∈ (sanitizeFilename (some t)).toList, isFilenameChar c = true) ∧
      (sanitizeFilename (some t)).length ≤ 80 ∧
      (t ≠ "" →
        (sanitizeFilename (some t)).toList
          = (t.toList.take 80).map fun c => if isFilenameChar c then c else '_') := by
  refine ⟨by decide, by decide, ?_, ?_, ?_⟩
  · intro c hc
    have hc2 := List.mem_of_mem_take hc
    obtain ⟨x, _, hx⟩ := List.mem_map.1 hc2
    rw [← hx]
    by_cases h : isFilenameChar x = true
    · simp [h]
    · rw [if_neg h]
      decide
  · show ((_ : List Char).take 80).length ≤ 80
    rw [List.length_take]
    exact Nat.min_le_left _ _
  · intro ht
    have hbeq : (t == "") = false := beq_eq_false_iff_ne.mpr ht
    simp only [sanitizeFilename, hbeq, Bool.false_eq_true, if_false]
    rw [List.map_take]
    rfl

/-- Witness for C9's theorem at the concrete title `a!`. -/
theorem sanitizeFilename_safety_witness :
    isFilenameChar 'a' = true ∧
      (sanitizeFilename (some "a!")).toList
        = (("a!".toList).take 80).map (fun c => if isFilenameChar c then c else '_') := by
  have h := sanitizeFilename_safety "a!"
  exact ⟨h.2.2.1 'a' (by decide), h.2.2.2.2 (by decide)⟩

/-! ### Markdown writer -/

/-- Lines contributed by a listed message are lines of the whole build. -/
theorem mem_allMessageLines {x : String} {m : Message} {msgs : List Message}
    (hm : m ∈ msgs) (hx : x ∈ messageLines m) : x ∈ allMessageLines msgs := by
  induction msgs with
  | nil => cases hm
  | cons m0 ms ih =>
    rcases List.mem_cons.1 hm with h | h
    · subst h
      exact List.mem_append.2 (Or.inl hx)
    · exact List.mem_append.2 (Or.inr (ih h))

/-- Claim C6 (confirmed).  On the spec's demo transcript the Markdown writer
produces exactly the expected line sequence — containing the literal lines
`# Demo`, `## You`, `> Hello`, `## Gemini` and the fenced python block with
`print(1)` — and in general every line of a user message appears prefixed
with `> ` among the built lines while assistant content is pushed verbatim. -/
theorem exportToMarkdown_roundtrip (d : String) (cd : ChatData) (m : Message)
    (hm : m ∈ cd.messages) :
    (jsSplitNl (exportToMarkdown "1/1/2024, 10:00:00 AM" demoChat)
        = ["# Demo", "", "*Exported on 1/1/2024, 10:00:00 AM | 2 messages*", "", "---", "",
           "## You", "", "> Hello", "", "## Gemini", "",
           "Hi there", "```python", "print(1)", "```", ""]) ∧
    (m.role = "user" →
      ∀ l ∈ jsSplitNl m.content, ("> " ++ l) ∈ exportToMarkdownLines d cd) ∧
    (m.role ≠ "user" → m.content ∈ exportToMarkdownLines d cd) := by
  refine ⟨by decide, ?_, ?_⟩
  · intro hrole l hl
    have hb : (m.role == "user") = true := beq_iff_eq.mpr hrole
    have hxm : ("> " ++ l) ∈ messageLines m := by
      simp only [messageLines, hb, if_true]
      refine List.mem_cons_of_mem _ (List.mem_cons_of_mem _ ?_)
      exact List.mem_append.2 (Or.inl (List.mem_map_of_mem _ hl))
    simp only [exportToMarkdownLines]
    exact List.mem_append.2 (Or.inr (mem_allMessageLines hm hxm))
  · intro hrole
    have hb : (m.role == "user") = false := beq_eq_false_iff_ne.mpr hrole
    have hxm : m.content ∈ messageLines m := by
      simp only [messageLines, hb, Bool.false_eq_true, if_false]
      refine List.mem_cons_of_mem _ (List.mem_cons_of_mem _ ?_)
      exact List.mem_append.2 (Or.inl (List.mem_cons_self _ _))
    simp only [exportToMarkdownLines]
    exact List.mem_append.2 (Or.inr (mem_allMessageLines hm hxm))

/-- Witness for C6's theorem: the demo user line `Hello` appears blockquoted
among the built lines. -/
theorem exportToMarkdown_roundtrip_witness :
    ("> " ++ "Hello") ∈ exportToMarkdownLines "1/1/2024, 10:00:00 AM" demoChat := by
  have h := exportToMarkdown_roundtrip "1/1/2024, 10:00:00 AM" demoChat
    ⟨"user", "Hello", ""⟩ (by decide)
  exact h.2.1 rfl "Hello" (by decide)

/-! ### Extraction -/

/-- Every message a container contributes is a user turn carrying the
(non-empty) user-query text or an assistant turn carrying the (non-empty)
model-response text. -/
theorem extractContainer_mem (c : Dom) (m : Message) (hm : m ∈ extractContainer c) :
    (m.role = "user" ∧ m.content = userQueryText c ∧ m.content ≠ "") ∨
    (m.role = "assistant" ∧ m.content = modelResponseText c ∧ m.content ≠ "") := by
  simp only [extractContainer] at hm
  rcases List.mem_append.1 hm with h | h
  · left
    cases hq : querySelectorTag c "user-query" with
    | none =>
      rw [hq] at h
      cases h
    | some uq =>
      rw [hq] at h
      cases hb : (extractFormattedText (some (resolveUserQueryEl uq)) == "")
      · simp only [hb, Bool.false_eq_true, if_false, List.mem_singleton] at h
        subst h
        refine ⟨rfl, ?_, ?_⟩
        · simp [userQueryText, hq]
        · exact bne_iff_ne.1 (by simp [bne, hb])
      · simp only [hb, if_true] at h
        cases h
  · right
    cases hq : querySelectorTag c "model-response" with
    | none =>
      rw [hq] at h
      cases h
    | some mr =>
      rw [hq] at h
      cases hb : (extractFormattedText (some (resolveModelResponseEl mr)) == "")
      · simp only [hb, Bool.false_eq_true, if_false, List.mem_singleton] at h
        subst h
        refine ⟨rfl, ?_, ?_⟩
        · simp [modelResponseText, hq]
        · exact bne_iff_ne.1 (by simp [bne, hb])
      · simp only [hb, if_true] at h
        cases h

/-- Every extracted message comes from one of the containers. -/
theorem mem_extractCurrentMessages {m : Message} :
    ∀ {containers : List Dom}, m ∈ extractCurrentMessages containers →
      ∃ c, m ∈ extractContainer c := by
  intro containers
  induction containers with
  | nil => intro h; cases h
  | cons c0 rest ih =>
    intro h
    rcases List.mem_append.1 h with h | h
    · exact ⟨c0, h⟩
    · exact ih h

/-- Claim C5 (confirmed).  Every turn in the assembled message list has
non-empty content, and a container whose user-query (resp. model-response)
text is empty after trimming contributes no turn of that role. -/
theorem extractCurrentMessages_nonempty_content (containers : List Dom) (c : Dom)
    (m : Message) :
    (m ∈ extractCurrentMessages containers → m.content ≠ "") ∧
    (userQueryText c = "" → ∀ m2 ∈ extractContainer c, m2.role ≠ "user") ∧
    (modelResponseText c = "" → ∀ m2 ∈ extractContainer c, m2.role ≠ "assistant") := by
  refine ⟨?_, ?_, ?_⟩
  · intro hm
    obtain ⟨c0, hc0⟩ := mem_extractCurrentMessages hm
    rcases extractContainer_mem c0 m hc0 with ⟨_, _, hne⟩ | ⟨_, _, hne⟩ <;> exact hne
  · intro hqt m2 hm2
    rcases extractContainer_mem c m2 hm2 with ⟨_, hc2, hne⟩ | ⟨hr, _, _⟩
    · exact absurd (hc2.trans hqt) hne
    · rw [hr]
      decide
  · intro hmt m2 hm2
    rcases extractContainer_mem c m2 hm2 with ⟨hr, _, _⟩ | ⟨_, hc2, hne⟩
    · rw [hr]
      decide
    · exact absurd (hc2.trans hmt) hne

/-- Witness for C5's theorem: the demo container has a whitespace-only
user query, so its only extracted message is the assistant one, whose content
is non-empty. -/
theorem extractCurrentMessages_nonempty_content_witness :
    (⟨"assistant", "Hello!", ""⟩ : Message).content ≠ "" ∧
      (⟨"assistant", "Hello!", ""⟩ : Message).role ≠ "user" := by
  have h := extractCurrentMessages_nonempty_content [demoContainer] demoContainer
    ⟨"assistant", "Hello!", ""⟩
  exact ⟨h.1 (by decide), h.2.1 (by decide) ⟨"assistant", "Hello!", ""⟩ (by decide)⟩

/-! ### Code-language detection -/

/-- Claim C4 (amended).  The standalone content script's `detectCodeLanguage`
resolves, in order: an explicit `language-X`/`lang-X` class token over the
block's and its inner code element's classes; a truthy `data-language` or
`data-lang` attribute; a preceding element sibling with truthy text shorter
than 30 characters whose trimmed, lower-cased text is in the fixed
`knownLangs` allow-list; else the empty tag.  The in-page `content.js`
variant applies only the first two steps and falls back to the empty tag
without ever consulting the sibling. -/
theorem detectCodeLanguage_fallback_chain (pre : Dom) (prevSib : Option Dom) :
    (∀ l, regexLangCapture (codeBlockClassString pre) = some l →
        detectCodeLanguage pre prevSib = l ∧ detectCodeLanguageMain pre = l) ∧
    (regexLangCapture (codeBlockClassString pre) = none →
      ∀ l, dataAttrLang pre = some l →
        detectCodeLanguage pre prevSib = l ∧ detectCodeLanguageMain pre = l) ∧
    (regexLangCapture (codeBlockClassString pre) = none → dataAttrLang pre = none →
      detectCodeLanguage pre prevSib = siblingLang prevSib ∧
        detectCodeLanguageMain pre = "") ∧
    (∀ p, prevSib = some p → textContent p ≠ "" → (textContent p).length < 30 →
      jsToLower (jsTrim (textContent p)) ∈ knownLangs →
      siblingLang prevSib = jsToLower (jsTrim (textContent p))) := by
  refine ⟨?_, ?_, ?_, ?_⟩
  · intro l hl
    constructor
    · simp [detectCodeLanguage, hl]
    · simp [detectCodeLanguageMain, hl]
  · intro hnone l hl
    constructor
    · simp [detectCodeLanguage, hnone, hl]
    · simp [detectCodeLanguageMain, hnone, hl]
  · intro h1 h2
    constructor
    · simp [detectCodeLanguage, h1, h2]
    · simp [detectCodeLanguageMain, h1, h2]
  · intro p hp hne hlen hknown
    subst hp
    simp only [siblingLang]
    rw [if_pos]
    · rw [if_pos ((contains_iff_mem _ _).2 hknown)]
    · simp [bne_iff_ne, hne, hlen]

/-- Witness for C4's theorem: for a bare `pre` preceded by a sibling reading
`Python`, the standalone resolver chain lands on the sibling step and yields
`python`. -/
theorem detectCodeLanguage_fallback_chain_witness :
    detectCodeLanguage cexPre (some cexSib) = jsToLower (jsTrim (textContent cexSib)) := by
  have h := detectCodeLanguage_fallback_chain cexPre (some cexSib)
  have h3 := h.2.2.1 (by decide) (by decide)
  have h4 := h.2.2.2 cexSib rfl (by decide) (by decide) (by decide)
  rw [h3.1, h4]

/-- Counterexample to claim C4 as stated: on a code block whose only language
hint is the preceding sibling `Python`, the in-page resolver (cited at
src/content.js:89-94) yields the empty tag — it has no sibling step — while
the standalone resolver yields `python`; the fence rendered by the in-page
walker for such a block carries an empty language tag. -/
theorem detectCodeLanguage_sibling_counterexample :
    detectCodeLanguageMain cexPre = "" ∧
      detectCodeLanguage cexPre (some cexSib) = "python" ∧
      extractFormattedText (some (Dom.element "div" "" [] [] [cexSib, cexPre]))
        = "Python\n\n```\nprint(1)\n```" :=
  ⟨by decide, by decide, by decide⟩
